import Mathlib

/-!
Verification of the `text-score` crate (ROUGE-N scoring).

Embedding conventions
=====================

* Rust `f32` values are modelled as exact rationals (`ℚ`).  Every concrete
  value a claim mentions (`0.0`, `1.0`, `5/6`, …) is reached here only
  through IEEE-exact operations, and the claims are stated in real-number
  terms, so exact rational arithmetic is the faithful reading.  A division
  whose IEEE result is not a finite number (`0.0/0.0 = NaN`, `x/0.0 = ±inf`)
  is modelled as `none` in an `Option ℚ`; in every case reachable from
  `rouge_n` the numerator is zero whenever the denominator is, so there
  `none` always stands for `NaN` specifically.
* Rust `usize`/`u32` arithmetic is modelled with the release-profile
  (two's-complement wrapping) semantics, i.e. explicitly `% 2^64` resp.
  `% 2^32`.  A debug build panics at exactly the inputs where the wrapped
  value differs from the mathematical one, so every divergence recorded
  below exists under either profile (comments note the one boundary case
  where the two profiles differ).
* A Rust panic (slice index out of range, arithmetic overflow) is modelled
  by an `Option`-`none` result of the function that panics.
* `HashMap<Vec<&str>, u32>` count maps (always built by
  `*entry(g).or_insert(0) += 1`) are embedded as the list of n-grams they
  count: `get(g).unwrap_or(&0)` becomes `List.count g`, `values().sum()`
  becomes `List.length`, and the `for (ngram, cnt) in target.iter()` loop
  enumerates the distinct keys, i.e. `target.dedup` in some unspecified
  hash-dependent order (order-independence of the result is proved, not
  assumed).
* Local `let` bindings of the Rust bodies (`bound`, `d`, `inter`, `p`, `r`)
  are inlined; each inlined expression is the binding's right-hand side.
-/

/-- All n-gram keys are compared by structural equality; align the `BEq`
instance used by the definitions below with the decidable-equality one the
count lemmas of the library are stated with. -/
instance (priority := 2000) instBEqListStr : BEq (List String) := instBEqOfDecidableEq

deriving instance DecidableEq for Except

namespace TextScore

/-- Modulus of Rust `usize` arithmetic (64-bit target). -/
def U64 : Nat := 18446744073709551616

/-- Modulus of Rust `u32` arithmetic. -/
def U32 : Nat := 4294967296

/-- Embeds `commons.rs` / `lib.rs` `Score { precision, recall, f1 }`
with `f32` fields as exact rationals; `f1` is `none` when the IEEE
result would be non-finite (see the header comment). -/
structure Score where
  precision : ℚ
  «recall» : ℚ
  f1 : Option ℚ
deriving DecidableEq, Repr

/-- Embeds `commons.rs` `precision(true_pos, false_pos) = true_pos as f32 / ((true_pos+false_pos) as f32)`.
The `u32` sum `true_pos + false_pos` wraps modulo `2^32` in release builds
(a debug build panics instead when it overflows); a zero denominator gives a
non-finite IEEE result, modelled `none`. -/
def precision (true_pos false_pos : Nat) : Option ℚ :=
  if (true_pos + false_pos) % U32 = 0 then none
  else some ((true_pos : ℚ) / (((true_pos + false_pos) % U32 : Nat) : ℚ))

/-- Embeds `commons.rs` `recall(true_pos, false_neg)`; same body as `precision`. -/
def «recall» (true_pos false_neg : Nat) : Option ℚ :=
  if (true_pos + false_neg) % U32 = 0 then none
  else some ((true_pos : ℚ) / (((true_pos + false_neg) % U32 : Nat) : ℚ))

/-- Embeds `commons.rs` `f1(precision, recall) = 2.0*(precision*recall)/(precision+recall)`.
When `precision + recall == 0` the IEEE division yields a non-finite value
(`NaN` whenever the numerator is also `0`, which holds at every call site
reachable from `rouge_n`, since there `precision, recall ≥ 0`), modelled
`none`. -/
def f1 (p r : ℚ) : Option ℚ :=
  if p + r = 0 then none
  else some (2 * (p * r) / (p + r))

/-- Accumulator loop of Rust `str::split_whitespace`: split on maximal runs
of whitespace characters, discarding empty fragments.  `acc` holds the
characters of the current token in reverse. -/
def splitWhitespaceAux : List Char → List Char → List String
  | [], acc => if acc.isEmpty then [] else [String.mk acc.reverse]
  | c :: cs, acc =>
    if c.isWhitespace then
      if acc.isEmpty then splitWhitespaceAux cs []
      else String.mk acc.reverse :: splitWhitespaceAux cs []
    else splitWhitespaceAux cs (c :: acc)

/-- Embeds `input.split_whitespace().collect::<Vec<&str>>()`.  (Rust splits
on Unicode `White_Space`; `Char.isWhitespace` covers space, tab, CR, LF,
which agrees on every input the spec and the tests mention.) -/
def splitWhitespace (s : String) : List String :=
  splitWhitespaceAux s.toList []

/-- Embeds `rouge.rs` / `lib.rs` `create_ngrams(tokens, n)`.

The Rust loop is `for i in 0..(tokens.len() - n + 1)` with *unguarded*
`usize` arithmetic: in a release build `tokens.len() - n + 1` wraps modulo
`2^64`, and each iteration takes the slice `tokens[i..i + n]`, which panics
as soon as `i + n > tokens.len()`.  The wrapped loop bound is
`((tokens.length + (U64 - n % U64)) % U64 + 1) % U64`; the loop completes
without a panic exactly when every `i` below the bound satisfies
`i + n ≤ tokens.len()`, i.e. when `bound + n ≤ tokens.len() + 1` (when the
bound is `0` the body never runs, and the bound is `0` only for
`n ≡ tokens.len() + 1 [MOD 2^64]`, where the inequality holds as well).
On a panic the result is `none`; otherwise the result is the list of all
`n`-windows, representing the count map.  (A debug build additionally
panics at `tokens.len() = n - 1`, where the subtraction itself overflows;
release returns the empty map there.) -/
def create_ngrams (tokens : List String) (n : Nat) : Option (List (List String)) :=
  if ((tokens.length + (U64 - n % U64)) % U64 + 1) % U64 + n ≤ tokens.length + 1 then
    some ((List.range (((tokens.length + (U64 - n % U64)) % U64 + 1) % U64)).map
      fun i => (tokens.drop i).take n)
  else
    none

/-- Body of `rouge.rs::ngram_based_score` with the key-enumeration order of
the `for (ngram, target_cnt) in target_ngrams.iter()` loop made explicit as
`keys`: `intersection_ngrams_count` is the sum over the enumerated keys of
`min(target_cnt, predicted_ngrams.get(ngram).unwrap_or(&0))`, and the three
fields are computed exactly as in the source — the intersection count over
the `max(_, 1)`-guarded totals, then `f1`. -/
def scoreWithKeys (predicted target keys : List (List String)) : Score :=
  { precision := (((keys.map fun g => min (target.count g) (predicted.count g)).sum : Nat) : ℚ) /
      ((max predicted.length 1 : Nat) : ℚ),
    «recall» := (((keys.map fun g => min (target.count g) (predicted.count g)).sum : Nat) : ℚ) /
      ((max target.length 1 : Nat) : ℚ),
    f1 := f1
      ((((keys.map fun g => min (target.count g) (predicted.count g)).sum : Nat) : ℚ) /
        ((max predicted.length 1 : Nat) : ℚ))
      ((((keys.map fun g => min (target.count g) (predicted.count g)).sum : Nat) : ℚ) /
        ((max target.length 1 : Nat) : ℚ)) }

/-- Embeds `rouge.rs` `ngram_based_score(predicted_ngrams, target_ngrams)`:
the `HashMap` iteration visits each distinct key of the target map exactly
once, i.e. it enumerates `target.dedup` (in a hash-dependent order; a
theorem below shows the order does not matter). -/
def ngram_based_score (predicted target : List (List String)) : Score :=
  scoreWithKeys predicted target target.dedup

/-- Embeds `rouge.rs` `rouge_n(input, reference, n)`:
`if n < 1` return `Err(Error::msg("n should be >= 1"))`, else tokenize both
texts, build both n-gram maps (a `none` = panic propagates), and return
`Ok(ngram_based_score(input_ngrams, reference_ngrams))`. -/
def rouge_n (input reference : String) (n : Nat) : Option (Except String Score) :=
  if n < 1 then some (Except.error "n should be >= 1")
  else
    match create_ngrams (splitWhitespace input) n,
          create_ngrams (splitWhitespace reference) n with
    | some input_ngrams, some reference_ngrams =>
        some (Except.ok (ngram_based_score input_ngrams reference_ngrams))
    | _, _ => none

end TextScore

namespace TextScore.lib

/-- Embeds `lib.rs` `f1`; the body is textually identical to `commons.rs`. -/
def f1 (p r : ℚ) : Option ℚ :=
  if p + r = 0 then none
  else some (2 * (p * r) / (p + r))

/-- Embeds `lib.rs` `create_ngrams`; the body is textually identical to
`rouge.rs::create_ngrams` (same unguarded loop bound, same slices). -/
def create_ngrams (tokens : List String) (n : Nat) : Option (List (List String)) :=
  if ((tokens.length + (U64 - n % U64)) % U64 + 1) % U64 + n ≤ tokens.length + 1 then
    some ((List.range (((tokens.length + (U64 - n % U64)) % U64 + 1) % U64)).map
      fun i => (tokens.drop i).take n)
  else
    none

/-- Embeds `lib.rs` `ngram_based_score`; the body is textually identical to
`rouge.rs::ngram_based_score` (distinct-key iteration embedded directly as
`target.dedup` here). -/
def ngram_based_score (predicted target : List (List String)) : Score :=
  { precision := (((target.dedup.map fun g => min (target.count g) (predicted.count g)).sum : Nat) : ℚ) /
      ((max predicted.length 1 : Nat) : ℚ),
    «recall» := (((target.dedup.map fun g => min (target.count g) (predicted.count g)).sum : Nat) : ℚ) /
      ((max target.length 1 : Nat) : ℚ),
    f1 := f1
      ((((target.dedup.map fun g => min (target.count g) (predicted.count g)).sum : Nat) : ℚ) /
        ((max predicted.length 1 : Nat) : ℚ))
      ((((target.dedup.map fun g => min (target.count g) (predicted.count g)).sum : Nat) : ℚ) /
        ((max target.length 1 : Nat) : ℚ)) }

/-- Embeds `lib.rs` `rouge(input, reference, n)`: identical control flow to
`rouge_n`, but returning `Result<Score, String>` with the (typo-bearing)
message `"n should be 1>=1"`. -/
def rouge (input reference : String) (n : Nat) : Option (Except String Score) :=
  if n < 1 then some (Except.error "n should be 1>=1")
  else
    match create_ngrams (splitWhitespace input) n,
          create_ngrams (splitWhitespace reference) n with
    | some input_ngrams, some reference_ngrams =>
        some (Except.ok (ngram_based_score input_ngrams reference_ngrams))
    | _, _ => none

end TextScore.lib

namespace TextScore

/-- Whenever `tokens.length + 1 < n` the wrapped loop bound is enormous and
the very first slice `tokens[0..n]` is out of range: `create_ngrams`
panics. -/
theorem create_ngrams_eq_none (tokens : List String) (n : Nat)
    (h1 : tokens.length + 1 < n) :
    create_ngrams tokens n = none := by
  have hb : ¬ (((tokens.length + (U64 - n % U64)) % U64 + 1) % U64 + n ≤ tokens.length + 1) := by
    unfold U64 at *
    omega
  unfold create_ngrams
  rw [if_neg hb]

/-- Both denominators used by `scoreWithKeys` are positive. -/
theorem max_len_one_pos (k : Nat) : (0 : ℚ) < ((max k 1 : Nat) : ℚ) := by
  exact_mod_cast Nat.lt_of_lt_of_le Nat.zero_lt_one (le_max_right k 1)

/-- Fields of any score produced by `scoreWithKeys` are nonnegative. -/
theorem scoreWithKeys_nonneg (predicted target keys : List (List String)) :
    0 ≤ (scoreWithKeys predicted target keys).precision ∧
      0 ≤ (scoreWithKeys predicted target keys).«recall» := by
  constructor <;>
    exact div_nonneg (Nat.cast_nonneg _) (Nat.cast_nonneg _)

/-- C1: the spec requires `create_ngrams` to return the empty multiset on a
token sequence shorter than `n`, and `rouge_n` to return `Ok(Score{0,0,0})`
on texts shorter than `n` tokens, the sliding-window bound being guarded
against unsigned underflow.  The code has no such guard: evaluating
`rouge_n` at the failing input — candidate `""` (zero tokens), `n = 2` —
the wrapped loop bound `0 - 2 + 1 = 2^64 - 1` sends the first iteration to
the out-of-range slice `tokens[0..2]` and the call panics (a debug build
already panics at the subtraction), so no `Ok` is ever returned. -/
theorem rouge_n_short_text_panics : rouge_n "" "a b" 2 = none := by decide

/-- C3 counterexample: at `n = 0` the error gets raised, but its message is
`"n should be >= 1"`, not the claimed `"n must be >= 1"`. -/
theorem rouge_n_error_message_cx :
    rouge_n "a" "a" 0 ≠ some (Except.error "n must be >= 1") ∧
      rouge_n "a" "a" 0 = some (Except.error "n should be >= 1") := by
  constructor <;> decide

/-- C3 amended: for `n < 1` `rouge_n` returns an error whose message is
`"n should be >= 1"` (the only error the function ever constructs), and for
`n ≥ 1` it never returns an error — every non-error outcome is either an
`Ok` score or a panic, never an `Err`. -/
theorem rouge_n_error_spec (input reference : String) (n : Nat) :
    (n < 1 → rouge_n input reference n = some (Except.error "n should be >= 1")) ∧
      (1 ≤ n → ∀ e, rouge_n input reference n ≠ some (Except.error e)) := by
  constructor
  · intro hn
    unfold rouge_n
    rw [if_pos hn]
  · intro hn e
    unfold rouge_n
    rw [if_neg (by omega)]
    cases create_ngrams (splitWhitespace input) n <;>
      cases create_ngrams (splitWhitespace reference) n <;> simp

/-- C3 witness: `n = 0` raises the `InvalidArgument`-style error. -/
theorem rouge_n_error_spec_witness :
    rouge_n "x" "y" 0 = some (Except.error "n should be >= 1") :=
  (rouge_n_error_spec "x" "y" 0).1 (by decide)

/-- C7 counterexample: the claim quantifies over all non-negative `u32`
counts with positive denominator, but at `tp = fp = 3·2^30` the `u32` sum
wraps to `2^31` (a debug build panics) and the released code returns
`3221225472 / 2147483648 = 1.5`, which is neither `tp/(tp+fp) = 1/2` nor
inside `[0, 1]`. -/
theorem precision_u32_overflow_cx :
    precision 3221225472 3221225472 = some (3 / 2) ∧ ¬ ((3 : ℚ) / 2 ≤ 1) := by
  constructor
  · unfold precision U32
    rw [if_neg (by decide)]
    norm_num
  · norm_num

/-- C7 amended: for all `u32` counts whose true sum still fits in a `u32`
(no overflow), `precision(tp, fp) = tp/(tp+fp)` and `recall(tp, fn)` is the
same computation, and the result lies in `[0, 1]`. -/
theorem precision_recall_spec (tp fp : Nat) (h1 : 0 < tp + fp) (h2 : tp + fp < U32) :
    precision tp fp = some ((tp : ℚ) / ((tp + fp : Nat) : ℚ)) ∧
      «recall» tp fp = some ((tp : ℚ) / ((tp + fp : Nat) : ℚ)) ∧
      0 ≤ (tp : ℚ) / ((tp + fp : Nat) : ℚ) ∧ (tp : ℚ) / ((tp + fp : Nat) : ℚ) ≤ 1 := by
  have hm : (tp + fp) % U32 = tp + fp := Nat.mod_eq_of_lt h2
  refine ⟨?_, ?_, ?_, ?_⟩
  · unfold precision
    rw [hm, if_neg (by omega)]
  · unfold «recall»
    rw [hm, if_neg (by omega)]
  · exact div_nonneg (Nat.cast_nonneg tp) (Nat.cast_nonneg _)
  · rw [div_le_one (by exact_mod_cast h1)]
    exact_mod_cast Nat.le_add_right tp fp

/-- C7 witness: `precision(10, 5) = recall(10, 5) = 10/15 ∈ [0, 1]`. -/
theorem precision_recall_spec_witness :
    precision 10 5 = some (((10 : Nat) : ℚ) / ((10 + 5 : Nat) : ℚ)) ∧
      «recall» 10 5 = some (((10 : Nat) : ℚ) / ((10 + 5 : Nat) : ℚ)) ∧
      0 ≤ ((10 : Nat) : ℚ) / ((10 + 5 : Nat) : ℚ) ∧
      ((10 : Nat) : ℚ) / ((10 + 5 : Nat) : ℚ) ≤ 1 :=
  precision_recall_spec 10 5 (by decide) (by decide)

/-- C8: the primitive `f1` computes `2*precision*recall/(precision+recall)`
whenever the denominator is non-zero, and takes the claimed values at the
three specified points (all three IEEE-exact): `f1(1,1) = 1`,
`f1(0,1) = 0`, `f1(1,0) = 0`. -/
theorem f1_spec :
    (∀ p r : ℚ, p + r ≠ 0 → f1 p r = some (2 * (p * r) / (p + r))) ∧
      f1 1 1 = some 1 ∧ f1 0 1 = some 0 ∧ f1 1 0 = some 0 := by
  refine ⟨fun p r h => ?_, ?_, ?_, ?_⟩
  · unfold f1
    rw [if_neg h]
  all_goals
    unfold f1
    rw [if_neg (by norm_num)]
    norm_num

/-- C8 witness: the general formula applied at `p = 2`, `r = 3`. -/
theorem f1_spec_witness : f1 2 3 = some (2 * ((2 : ℚ) * 3) / ((2 : ℚ) + 3)) :=
  f1_spec.1 2 3 (by norm_num)

/-- Evaluation rule for `rouge_n` when `n ≥ 1` and both n-gram builds
return: the result is `Ok` of the overlap score. -/
theorem rouge_n_eval (input reference : String) (n : Nat) (hn : ¬ n < 1)
    (ig rg : List (List String))
    (h1 : create_ngrams (splitWhitespace input) n = some ig)
    (h2 : create_ngrams (splitWhitespace reference) n = some rg) :
    rouge_n input reference n = some (Except.ok (ngram_based_score ig rg)) := by
  unfold rouge_n
  rw [if_neg hn, h1, h2]

/-- The `f1` primitive returns `NaN` exactly on the zero-zero input, given
nonnegative arguments (the only arguments reachable from `rouge_n`). -/
theorem f1_none_iff (p r : ℚ) (hp : 0 ≤ p) (hr : 0 ≤ r) :
    f1 p r = none ↔ p = 0 ∧ r = 0 := by
  unfold f1
  rcases eq_or_ne (p + r) 0 with h | h
  · rw [if_pos h]
    exact iff_of_true rfl ((add_eq_zero_iff_of_nonneg hp hr).mp h)
  · rw [if_neg h]
    refine iff_of_false (by simp) fun hc => h ?_
    rw [hc.1, hc.2, add_zero]

/-- C2 counterexample: the claim says an `Ok` score's `f1` is never `NaN`
and is `0.0` at zero overlap; but with candidate `"a"`, reference `"b"`,
`n = 1` the overlap is `0`, precision and recall are both `0.0`, and the
returned `f1` is `0.0/0.0`, IEEE `NaN` (modelled `none`) — not `0.0`. -/
theorem rouge_n_zero_overlap_nan_cx :
    rouge_n "a" "b" 1 = some (Except.ok { precision := 0, «recall» := 0, f1 := none }) := by
  rw [rouge_n_eval "a" "b" 1 (by decide) [["a"]] [["b"]] (by decide) (by decide)]
  have hi : ((([["b"]] : List (List String)).dedup).map
      fun g => min (List.count g [["b"]]) (List.count g [["a"]])).sum = 0 := by decide
  unfold ngram_based_score scoreWithKeys
  rw [hi]
  norm_num [f1, Score.mk.injEq]

/-- C2 amended: an `Ok` score of `rouge_n` has `f1 = NaN` exactly when its
precision and recall are both `0.0` (i.e. at zero n-gram overlap); the code
propagates the `NaN` in that case rather than returning `0.0`, and whenever
the overlap is non-zero `f1` is a finite (non-`NaN`) ratio. -/
theorem rouge_n_f1_nan_iff (input reference : String) (n : Nat) (s : Score)
    (h : rouge_n input reference n = some (Except.ok s)) :
    (s.f1 = none ↔ s.precision = 0 ∧ s.«recall» = 0) := by
  unfold rouge_n at h
  by_cases hn : n < 1
  · rw [if_pos hn] at h
    simp at h
  · rw [if_neg hn] at h
    cases h1 : create_ngrams (splitWhitespace input) n with
    | none =>
      rw [h1] at h
      cases h2 : create_ngrams (splitWhitespace reference) n <;> rw [h2] at h <;> simp at h
    | some ig =>
      rw [h1] at h
      cases h2 : create_ngrams (splitWhitespace reference) n with
      | none =>
        rw [h2] at h
        simp at h
      | some rg =>
        rw [h2] at h
        simp only [Option.some.injEq, Except.ok.injEq] at h
        subst h
        obtain ⟨hp, hr⟩ := scoreWithKeys_nonneg ig rg rg.dedup
        exact f1_none_iff _ _ hp hr

/-- C2 witness: the theorem applied at `rouge_n "a" "a" 1`, whose `Ok`
score has positive overlap, non-zero precision and recall, and finite
`f1`. -/
theorem rouge_n_f1_nan_iff_witness :
    ((ngram_based_score [["a"]] [["a"]]).f1 = none ↔
      (ngram_based_score [["a"]] [["a"]]).precision = 0 ∧
        (ngram_based_score [["a"]] [["a"]]).«recall» = 0) :=
  rouge_n_f1_nan_iff "a" "a" 1 (ngram_based_score [["a"]] [["a"]])
    (rouge_n_eval "a" "a" 1 (by decide) [["a"]] [["a"]] (by decide) (by decide))

/-- C9: the Score computed by `ngram_based_score` does not depend on the
hash-dependent order in which the target map's keys are iterated: any
enumeration `keys` of the distinct target n-grams (any permutation of
`target.dedup`) yields the same three fields, since the overlap is an
order-independent sum; with that, `rouge_n` is a pure function of its
three arguments. -/
theorem scoreWithKeys_perm_invariant (predicted target keys : List (List String))
    (h : keys.Perm target.dedup) :
    scoreWithKeys predicted target keys = ngram_based_score predicted target := by
  unfold ngram_based_score scoreWithKeys
  rw [(h.map fun g => min (target.count g) (predicted.count g)).sum_eq]

/-- C9 witness: iterating the two distinct keys in the opposite order gives
the same Score. -/
theorem scoreWithKeys_perm_invariant_witness :
    scoreWithKeys [["a"], ["b"]] [["b"], ["a"]] [["a"], ["b"]] =
      ngram_based_score [["a"], ["b"]] [["b"], ["a"]] :=
  scoreWithKeys_perm_invariant [["a"], ["b"]] [["b"], ["a"]] [["a"], ["b"]] (by decide)

/-- C10: `lib.rs::rouge` and `rouge.rs::rouge_n` are equivalent: on every
input they panic together, return `Ok` of the *same* Score together, and
return an error together (only the error payloads differ:
`String "n should be 1>=1"` versus `anyhow "n should be >= 1"`). -/
theorem rouge_equiv_rouge_n (input reference : String) (n : Nat) :
    (lib.rouge input reference n = none ↔ rouge_n input reference n = none) ∧
      (∀ s : Score, lib.rouge input reference n = some (Except.ok s) ↔
        rouge_n input reference n = some (Except.ok s)) ∧
      ((∃ e, lib.rouge input reference n = some (Except.error e)) ↔
        (∃ e, rouge_n input reference n = some (Except.error e))) := by
  have hc : lib.create_ngrams = create_ngrams := rfl
  have hg : lib.ngram_based_score = ngram_based_score := rfl
  unfold lib.rouge rouge_n
  rw [hc, hg]
  by_cases hn : n < 1
  · rw [if_pos hn, if_pos hn]
    exact ⟨by simp, fun s => by simp, by simp⟩
  · rw [if_neg hn, if_neg hn]
    cases create_ngrams (splitWhitespace input) n <;>
      cases create_ngrams (splitWhitespace reference) n <;>
      exact ⟨by simp, fun s => by simp, by simp⟩

end TextScore
